import Mathlib

/-!
Verification of the `user-prefs` service: a shallow embedding in Lean 4 of the
Go sources (DynamoDB-backed preference store, HTTP handlers, JWT middleware)
together with proofs about the embedded definitions.

Modelling conventions:

* A Go `map[string]string` is modelled as `Finmap (fun _ : String => String)`.
  Go maps are unordered with unique keys; `Finmap` is exactly that.
* The DynamoDB table is a partial function from the partition-key string to an
  item.  Only this program ever writes the table, and it only ever writes the
  attributes `PK`, `preferences` (a map of strings), `createdAt`, `updatedAt`,
  so an item is modelled as a record of the three non-key attributes, each
  optional.  Consequently the `"preferences attribute is not a map"` branch of
  `unmarshalPrefs` and its non-string-value skip are unreachable and
  marshalling a map to the `M` attribute and back is the identity.
* `time.Now().UTC().Format(time.RFC3339)` is abstracted as an explicit `now`
  argument.
* Transport-level failures of the AWS client are not modelled; the modelled
  error is DynamoDB's `ValidationException`, which the store methods wrap and
  return as a Go `error`.
* DynamoDB `UpdateItem` semantics for the two update-expression shapes the
  code builds (`SET preferences.#ki = :vi, ..., updatedAt = :now` and
  `REMOVE preferences.#key`): a document path such as `preferences.#k`
  dereferences the top-level attribute `preferences`; if the item does not
  exist or the attribute is absent, the path is invalid and the whole request
  is rejected with a `ValidationException` ("The document path provided in the
  update expression is invalid for update") and nothing is written.  `SET` of
  a missing leaf inside an existing map creates it, `REMOVE` of a missing leaf
  of an existing map is a silent no-op.  An update expression with an empty
  `SET` clause (which the Go code produces for an empty input map:
  `"SET , updatedAt = :now"`) is a syntax error, also a `ValidationException`.
-/

namespace UserPrefs

/-- Preference Set representation: a finite map from string keys to string
values, the embedding of Go's `map[string]string`. -/
abbrev Smap := Finmap (fun _ : String => String)

/-- One DynamoDB item of the `user-preferences` table, excluding its `PK`
attribute (which is the table key): the `preferences` string-map attribute and
the two timestamp attributes, each possibly absent. -/
structure Item where
  preferences : Option Smap
  createdAt : Option String
  updatedAt : Option String
deriving DecidableEq

/-- The DynamoDB table: partition key (`PK` string) to item. -/
abbrev Table := String → Option Item

/-- Table with no items. -/
def emptyTable : Table := fun _ => none

/-- Point update of a table: DynamoDB writing (or deleting, with `none`) the
item stored under key `k`. -/
def tset (t : Table) (k : String) (v : Option Item) : Table :=
  fun k2 => if k2 = k then v else t k2

/-- Error outcome of a DynamoDB request as surfaced to the Go store methods
(wrapped there with `fmt.Errorf`). -/
inductive DBErr where
  | validationException
deriving DecidableEq

theorem tset_same (t : Table) (k : String) (v : Option Item) : tset t k v k = v := by
  simp [tset]

theorem tset_other (t : Table) (k : String) (v : Option Item) (k2 : String) (h : k2 ≠ k) :
    tset t k v k2 = t k2 := by
  simp [tset, h]

namespace DynamoStore

/-- Embeds `DynamoStore.pk`: the partition key for a user. -/
def pk (userID : String) : String := "USER#" ++ userID

/-- Embeds `DynamoStore.GetAll`: `GetItem` on the user's key; a missing item
yields the nil map (`none` here), otherwise `unmarshalPrefs` yields the
`preferences` attribute when present and the nil map when absent. -/
def GetAll (t : Table) (userID : String) : Option Smap :=
  match t (pk userID) with
  | none => none
  | some item => item.preferences

/-- Embeds `DynamoStore.Get`: `GetAll` followed by a map lookup; the Go
`found` flag is `Option.isSome` of the result, a lookup in the nil map finds
nothing. -/
def Get (t : Table) (userID key : String) : Option String :=
  match GetAll t userID with
  | none => none
  | some prefs => prefs.lookup key

/-- Embeds `DynamoStore.ReplaceAll`: `PutItem` of a full fresh item holding
the given preferences and `createdAt = updatedAt = now`, replacing any
previous item under the same key. -/
def ReplaceAll (t : Table) (userID : String) (prefs : Smap) (now : String) : Table :=
  tset t (pk userID)
    (some { preferences := some prefs, createdAt := some now, updatedAt := some now })

/-- Embeds `DynamoStore.Update`: one `UpdateItem` with the expression
`SET preferences.#k0 = :v0, ..., updatedAt = :now` and `ReturnValues =
ALL_NEW`.  With an empty input map the built expression is the malformed
`"SET , updatedAt = :now"`, rejected by DynamoDB.  The `preferences.#ki`
document paths require the item to exist with a `preferences` attribute,
otherwise the request is rejected and nothing is written; when they resolve,
every given key is written into the map (overwriting, left-biased union) and
`updatedAt` is set, in one atomic request.  The returned map is
`unmarshalPrefs` of the `ALL_NEW` attributes. -/
def Update (t : Table) (userID : String) (prefs : Smap) (now : String) :
    Except DBErr (Table × Option Smap) :=
  if prefs = ∅ then
    Except.error DBErr.validationException
  else
    match t (pk userID) with
    | none => Except.error DBErr.validationException
    | some item =>
      match item.preferences with
      | none => Except.error DBErr.validationException
      | some m =>
        let merged := prefs ∪ m
        Except.ok
          (tset t (pk userID) (some { item with preferences := some merged, updatedAt := some now }),
           some merged)

/-- Embeds `DynamoStore.DeleteAll`: `DeleteItem` on the user's key, a no-op
when the item is already absent. -/
def DeleteAll (t : Table) (userID : String) : Table :=
  tset t (pk userID) none

/-- Embeds `DynamoStore.Delete`: one `UpdateItem` with the expression
`REMOVE preferences.#key`.  The document path requires the item to exist with
a `preferences` attribute, otherwise the request is rejected; when it
resolves, the key is removed from the map (silently doing nothing when the
key is absent from it). -/
def Delete (t : Table) (userID key : String) : Except DBErr Table :=
  match t (pk userID) with
  | none => Except.error DBErr.validationException
  | some item =>
    match item.preferences with
    | none => Except.error DBErr.validationException
    | some m =>
      Except.ok (tset t (pk userID) (some { item with preferences := some (m.erase key) }))

end DynamoStore

/-- Predicate: user `u` has a Preference Set in table `t` (an item exists and
carries a `preferences` attribute). -/
def hasPrefSet (t : Table) (u : String) : Prop :=
  ∃ item m, t (DynamoStore.pk u) = some item ∧ item.preferences = some m

/-! ### HTTP handlers

`PreferencesHandler` methods from the handlers source file.  A handler is a
function of the request data it actually consumes — the `userId` (and `key`)
path values, the claims the auth middleware attached to the request context
(`ClaimsFromContext`: `none` when absent), the decoded request body for write
operations — together with the store state.  It yields the written response,
the resulting store state, and the trace of `Store` method invocations it
performed (so that "the Store is not invoked" is a provable statement). -/

/-- Embeds the middleware's `Claims`: the JWT claims the service keeps. -/
structure Claims where
  subject : String
deriving DecidableEq

/-- Response written by a handler: either an `APIError` envelope
(`writeError`), a `PreferencesResponse`, a `SinglePrefResponse`, or a bare
`204 No Content`.  The `preferences` field is an `Option` because Go encodes
a nil map as JSON `null` and a (possibly empty) map as an object. -/
inductive HResp where
  | apiError (status : Nat) (msg : String)
  | prefsOut (status : Nat) (userId : String) (preferences : Option Smap)
  | singleOut (status : Nat) (key value : String)
  | noContent
deriving DecidableEq

/-- One `Store` method invocation performed by a handler. -/
inductive StoreOp where
  | getAllOp (userID : String)
  | getOp (userID key : String)
  | replaceAllOp (userID : String)
  | updateOp (userID : String)
  | deleteAllOp (userID : String)
  | deleteOp (userID key : String)
deriving DecidableEq

/-- Outcome of one handler call: response, resulting table, trace of store
invocations (in order). -/
structure HOut where
  resp : HResp
  table : Table
  calls : List StoreOp

/-- Embeds `PreferencesHandler.authorize`: rejects an empty path `userId`
with 400, a request context without claims with 401, and a claims subject
different from the path `userId` with 403; otherwise the request proceeds.
The result is the error response to write, or `none` to proceed. -/
def authorize (userID : String) (claims : Option Claims) : Option (Nat × String) :=
  if userID = "" then some (400, "missing userId")
  else
    match claims with
    | none => some (401, "missing claims")
    | some c => if c.subject ≠ userID then some (403, "access denied") else none

/-- Decoded shape of a write-request body, as seen by
`json.NewDecoder(r.Body).Decode(&prefs)` with `prefs map[string]string`:
`malformed` covers every body the decode rejects (invalid JSON, a JSON value
that is not an object or `null`, an object with a non-string or nested value);
`nullBody` is the JSON literal `null`, which Go decodes successfully leaving
the map nil; `obj m` is a flat string-to-string JSON object. -/
inductive Body where
  | malformed
  | nullBody
  | obj (m : Smap)

/-- Result of the Go decode: `none` is a decode error, otherwise the decoded
map, which is nil (`none`) exactly for a `null` body. -/
def decodeBody : Body → Option (Option Smap)
  | Body.malformed => none
  | Body.nullBody => some none
  | Body.obj m => some (some m)

/-- Embeds `PreferencesHandler.GetAll`: authorize, read the full map, replace
a nil result by an empty map, respond 200. -/
def handleGetAll (userID : String) (claims : Option Claims) (t : Table) : HOut :=
  match authorize userID claims with
  | some (s, m) => { resp := HResp.apiError s m, table := t, calls := [] }
  | none =>
    let prefs := DynamoStore.GetAll t userID
    { resp := HResp.prefsOut 200 userID (some (prefs.getD ∅)),
      table := t, calls := [StoreOp.getAllOp userID] }

/-- Embeds `PreferencesHandler.GetOne`: authorize, reject an empty path key
with 400, then 404 when the key is not found and 200 with key and value when
it is. -/
def handleGetOne (userID key : String) (claims : Option Claims) (t : Table) : HOut :=
  match authorize userID claims with
  | some (s, m) => { resp := HResp.apiError s m, table := t, calls := [] }
  | none =>
    if key = "" then { resp := HResp.apiError 400 "missing key", table := t, calls := [] }
    else
      match DynamoStore.Get t userID key with
      | none =>
        { resp := HResp.apiError 404 "preference not found",
          table := t, calls := [StoreOp.getOp userID key] }
      | some v =>
        { resp := HResp.singleOut 200 key v,
          table := t, calls := [StoreOp.getOp userID key] }

/-- Embeds `PreferencesHandler.ReplaceAll` (PUT and POST): authorize, decode
the body (rejecting a failed decode with 400), store the decoded map (a nil
map marshals as an empty attribute map), echo the decoded value with 200. -/
def handleReplaceAll (userID : String) (claims : Option Claims) (body : Body) (now : String)
    (t : Table) : HOut :=
  match authorize userID claims with
  | some (s, m) => { resp := HResp.apiError s m, table := t, calls := [] }
  | none =>
    match decodeBody body with
    | none => { resp := HResp.apiError 400 "invalid JSON body", table := t, calls := [] }
    | some prefsOpt =>
      { resp := HResp.prefsOut 200 userID prefsOpt,
        table := DynamoStore.ReplaceAll t userID (prefsOpt.getD ∅) now,
        calls := [StoreOp.replaceAllOp userID] }

/-- Embeds `PreferencesHandler.PatchPrefs` (PATCH): authorize, decode the
body (rejecting a failed decode with 400), reject a decoded map of length
zero (nil or empty) with 400, otherwise run the store merge — responding 500
on its failure and 200 with the merged map on success. -/
def handlePatchPrefs (userID : String) (claims : Option Claims) (body : Body) (now : String)
    (t : Table) : HOut :=
  match authorize userID claims with
  | some (s, m) => { resp := HResp.apiError s m, table := t, calls := [] }
  | none =>
    match decodeBody body with
    | none => { resp := HResp.apiError 400 "invalid JSON body", table := t, calls := [] }
    | some prefsOpt =>
      let prefs := prefsOpt.getD ∅
      if prefs = ∅ then
        { resp := HResp.apiError 400 "empty preferences", table := t, calls := [] }
      else
        match DynamoStore.Update t userID prefs now with
        | Except.error _ =>
          { resp := HResp.apiError 500 "failed to update preferences",
            table := t, calls := [StoreOp.updateOp userID] }
        | Except.ok (t2, merged) =>
          { resp := HResp.prefsOut 200 userID merged,
            table := t2, calls := [StoreOp.updateOp userID] }

/-- Embeds `PreferencesHandler.DeleteAll`: authorize, delete the item,
respond 204. -/
def handleDeleteAll (userID : String) (claims : Option Claims) (t : Table) : HOut :=
  match authorize userID claims with
  | some (s, m) => { resp := HResp.apiError s m, table := t, calls := [] }
  | none =>
    { resp := HResp.noContent, table := DynamoStore.DeleteAll t userID,
      calls := [StoreOp.deleteAllOp userID] }

/-- Embeds `PreferencesHandler.DeleteOne`: authorize, reject an empty path
key with 400, run the single-key store delete — responding 500 on its failure
and 204 on success. -/
def handleDeleteOne (userID key : String) (claims : Option Claims) (t : Table) : HOut :=
  match authorize userID claims with
  | some (s, m) => { resp := HResp.apiError s m, table := t, calls := [] }
  | none =>
    if key = "" then { resp := HResp.apiError 400 "missing key", table := t, calls := [] }
    else
      match DynamoStore.Delete t userID key with
      | Except.error _ =>
        { resp := HResp.apiError 500 "failed to delete preference",
          table := t, calls := [StoreOp.deleteOp userID key] }
      | Except.ok t2 =>
        { resp := HResp.noContent, table := t2, calls := [StoreOp.deleteOp userID key] }

/-! ### JWT authentication middleware

`JWTAuth` from the middleware source file, over a shallow model of
`github.com/golang-jwt/jwt/v5`.  A well-formed compact-serialized token is a
payload (registered claims `sub`, `iss`, `exp` plus the header's `alg`)
together with its HMAC signature.  The MAC is idealized: a signature value is
represented by the key and message that produced it, and verification against
a secret succeeds exactly when the signature was produced with that secret
over this token's payload — modelling an unforgeable HMAC-SHA256.  The
decoding of a token string (base64/JSON of the three dot-separated segments)
is abstracted as a function `lk : String → Option SignedToken`, where `none`
is a string that is not a structurally well-formed token. -/

/-- Claims payload of a token, together with the header's declared
algorithm.  `exp` is a NumericDate (seconds). -/
structure TokenPayload where
  alg : String
  sub : Option String
  iss : Option String
  exp : Option Nat
deriving DecidableEq

/-- A structurally well-formed signed token: payload plus idealized MAC (the
key and message the signature value was computed from). -/
structure SignedToken where
  payload : TokenPayload
  macKey : String
  macMsg : TokenPayload
deriving DecidableEq

/-- Idealized HMAC verification of a token's signature against `secret`. -/
def macValid (secret : String) (tk : SignedToken) : Bool :=
  tk.macKey = secret && tk.macMsg = tk.payload

/-- Expiration check of `jwt/v5` claim validation at time `now`: a token with
an `exp` claim is expired when `exp ≤ now`; a token without one has no
expiry. -/
def expiredAt (now : Nat) : Option Nat → Bool
  | none => false
  | some e => decide (e ≤ now)

/-- Helper for `splitN2`: break a character list at its first space, or
`none` when it has no space. -/
def breakAtSpace : List Char → Option (List Char × List Char)
  | [] => none
  | c :: rest =>
    if c = ' ' then some ([], rest)
    else
      match breakAtSpace rest with
      | none => none
      | some (a, b) => some (c :: a, b)

/-- Embeds `strings.SplitN(s, " ", 2)`: split at the first space, keeping the
remainder (further spaces included) as the second element; a string without a
space yields the one-element list. -/
def splitN2 (s : String) : List String :=
  match breakAtSpace s.data with
  | none => [s]
  | some (a, b) => [String.mk a, String.mk b]

/-- ASCII lower-casing of one character. -/
def lowerChar (c : Char) : Char :=
  if 'A' ≤ c ∧ c ≤ 'Z' then Char.ofNat (c.toNat + 32) else c

/-- Case-insensitive character-list equality. -/
def eqFoldList : List Char → List Char → Bool
  | [], [] => true
  | a :: as, b :: bs => lowerChar a = lowerChar b && eqFoldList as bs
  | _, _ => false

/-- Embeds `strings.EqualFold` on the ASCII inputs this program compares
(the header scheme against `"Bearer"`). -/
def eqFold (s t : String) : Bool := eqFoldList s.data t.data

/-- Embeds `jwt.Parse` with `WithValidMethods([]string{"HS256"})` and, when
`issuer` is non-empty, `WithIssuer(issuer)`: decode the compact serialization
(`lk`), require the declared algorithm to be HS256, verify the signature with
the secret, validate expiry and — when configured — the issuer claim (which
must be present and equal).  Any failure yields an invalid token (`none`). -/
def jwtParse (lk : String → Option SignedToken) (secret issuer : String) (now : Nat)
    (tokenStr : String) : Option TokenPayload :=
  match lk tokenStr with
  | none => none
  | some tk =>
    if tk.payload.alg ≠ "HS256" then none
    else if !macValid secret tk then none
    else if expiredAt now tk.payload.exp then none
    else if issuer ≠ "" ∧ tk.payload.iss ≠ some issuer then none
    else some tk.payload

/-- Outcome of the middleware on one request: either it writes a rejection
response itself, or it invokes the wrapped handler — with claims attached to
the request context, except on the `/healthz` passthrough. -/
inductive MWOut where
  | reject (status : Nat) (msg : String)
  | next (claims : Option Claims)
deriving DecidableEq

/-- Embeds `JWTAuth(secret, issuer)` applied to a request with path `path`
and `Authorization` header value `authHeader` (`""` when the header is
absent, as `Header.Get` returns): `/healthz` skips authentication; otherwise
the header must be present, of the form `<scheme> <token>` with scheme
`Bearer` up to ASCII case (`strings.EqualFold`), and the token must parse and
validate and carry a non-empty subject (`GetSubject` yields `""` for a
missing `sub`); every failure is a 401 and the wrapped handler is not
invoked. -/
def JWTAuth (lk : String → Option SignedToken) (secret issuer : String) (now : Nat)
    (path authHeader : String) : MWOut :=
  if path = "/healthz" then MWOut.next none
  else if authHeader = "" then MWOut.reject 401 "missing authorization header"
  else
    match splitN2 authHeader with
    | [scheme, tokenStr] =>
      if eqFold scheme "Bearer" then
        match jwtParse lk secret issuer now tokenStr with
        | none => MWOut.reject 401 "invalid or expired token"
        | some payload =>
          let sub := payload.sub.getD ""
          if sub = "" then MWOut.reject 401 "token missing subject claim"
          else MWOut.next (some { subject := sub })
      else MWOut.reject 401 "invalid authorization header format"
    | _ => MWOut.reject 401 "invalid authorization header format"

/-- Acceptance condition of the middleware for a non-`/healthz` request, as
enumerated by the specification: header present, Bearer scheme, well-formed
token, HS256 algorithm, valid signature under the configured secret,
unexpired, matching issuer claim when an issuer is configured, non-empty
subject claim. -/
def tokenAccepted (lk : String → Option SignedToken) (secret issuer : String) (now : Nat)
    (authHeader : String) : Prop :=
  authHeader ≠ "" ∧
  ∃ scheme tokenStr tk,
    splitN2 authHeader = [scheme, tokenStr] ∧
    eqFold scheme "Bearer" = true ∧
    lk tokenStr = some tk ∧
    tk.payload.alg = "HS256" ∧
    macValid secret tk = true ∧
    expiredAt now tk.payload.exp = false ∧
    (issuer ≠ "" → tk.payload.iss = some issuer) ∧
    tk.payload.sub.getD "" ≠ ""

/-! ### Helper lemmas -/

theorem pk_inj {u1 u2 : String} (h : DynamoStore.pk u1 = DynamoStore.pk u2) : u1 = u2 := by
  have hd := congrArg String.data h
  simp only [DynamoStore.pk, String.data_append] at hd
  exact String.ext (List.append_cancel_left hd)

theorem erase_of_lookup_none {m : Smap} {k : String} (h : m.lookup k = none) : m.erase k = m := by
  apply Finmap.ext_lookup
  intro x
  by_cases hx : x = k
  · subst hx
    rw [Finmap.lookup_erase, h]
  · rw [Finmap.lookup_erase_ne hx]

theorem Update_ok {t : Table} {u : String} {item : Item} {m : Smap} (p : Smap) (now : String)
    (ht : t (DynamoStore.pk u) = some item) (hm : item.preferences = some m) (hp : p ≠ ∅) :
    DynamoStore.Update t u p now
      = Except.ok (tset t (DynamoStore.pk u)
          (some { item with preferences := some (p ∪ m), updatedAt := some now }),
        some (p ∪ m)) := by
  simp [DynamoStore.Update, ht, hm, hp]

theorem Delete_ok {t : Table} {u : String} {item : Item} {m : Smap} (k : String)
    (ht : t (DynamoStore.pk u) = some item) (hm : item.preferences = some m) :
    DynamoStore.Delete t u k
      = Except.ok (tset t (DynamoStore.pk u)
          (some { item with preferences := some (m.erase k) })) := by
  simp [DynamoStore.Delete, ht, hm]

/-- Example preference map used to instantiate hypothesis-bearing theorems. -/
def exM : Smap := Finmap.singleton "theme" "dark"

/-- Example item holding `exM`. -/
def exItem : Item := { preferences := some exM, createdAt := some "t0", updatedAt := some "t0" }

/-- Example table: the result of `ReplaceAll` of `exM` for user `alice`. -/
def exT : Table := DynamoStore.ReplaceAll emptyTable "alice" exM "t0"

/-! ### Claims -/

/-- C1.  The claim says `Update(U, P)` merges `P` into U's prior set, creating
the set when U has none.  The code is wrong on the creation half: its
`UpdateItem` writes through the document paths `preferences.#ki` without
`if_not_exists`, and when the user has no item (or no `preferences`
attribute) DynamoDB rejects the document path with a `ValidationException`,
so `Update` returns an error and creates nothing.  This theorem evaluates the
embedded code at the failing input: user `alice` never written, merge of the
single pair `theme ↦ dark`. -/
theorem C1_update_absent_user_errors :
    DynamoStore.Update emptyTable "alice" (Finmap.singleton "theme" "dark") "2024-01-01T00:00:00Z"
        = Except.error DBErr.validationException ∧
      (handlePatchPrefs "alice" (some { subject := "alice" })
          (Body.obj (Finmap.singleton "theme" "dark")) "2024-01-01T00:00:00Z" emptyTable).resp
        = HResp.apiError 500 "failed to update preferences" :=
  ⟨rfl, rfl⟩

/-- C5.  `ReplaceAll(U, M)` followed by `GetAll(U)` yields exactly `M` (the
set is created whatever the prior state of `U`, including no set), and
replaying `ReplaceAll(U, M)` with the same `M` — at whatever later timestamp —
changes nothing observable through the Store's read operations `GetAll` and
`Get`, for any user. -/
theorem C5_replaceAll_roundtrip_idempotent (t : Table) (u : String) (m : Smap) (n1 n2 : String) :
    DynamoStore.GetAll (DynamoStore.ReplaceAll t u m n1) u = some m ∧
    (∀ u2, DynamoStore.GetAll (DynamoStore.ReplaceAll (DynamoStore.ReplaceAll t u m n1) u m n2) u2
        = DynamoStore.GetAll (DynamoStore.ReplaceAll t u m n1) u2) ∧
    (∀ u2 k, DynamoStore.Get (DynamoStore.ReplaceAll (DynamoStore.ReplaceAll t u m n1) u m n2) u2 k
        = DynamoStore.Get (DynamoStore.ReplaceAll t u m n1) u2 k) := by
  have hrep : ∀ u2, DynamoStore.GetAll (DynamoStore.ReplaceAll (DynamoStore.ReplaceAll t u m n1) u m n2) u2
      = DynamoStore.GetAll (DynamoStore.ReplaceAll t u m n1) u2 := by
    intro u2
    by_cases h : DynamoStore.pk u2 = DynamoStore.pk u
    · simp [DynamoStore.GetAll, DynamoStore.ReplaceAll, tset, h]
    · simp [DynamoStore.GetAll, DynamoStore.ReplaceAll, tset, h]
  refine ⟨?_, hrep, ?_⟩
  · simp [DynamoStore.GetAll, DynamoStore.ReplaceAll, tset]
  · intro u2 k
    simp [DynamoStore.Get, hrep u2]

/-- C6.  For a user whose record is absent, `GetAll` yields the distinct
"absent" result (`none`, the Go nil map) rather than an empty map, while
after `ReplaceAll(U, {})` it yields an existing empty map, a different value;
and the full-read handler turns the absent result into a 200 response whose
preferences field is the empty map. -/
theorem C6_absent_vs_empty (t : Table) (u : String) (hu : u ≠ "")
    (habs : t (DynamoStore.pk u) = none) :
    DynamoStore.GetAll t u = none ∧
    (∀ n, DynamoStore.GetAll (DynamoStore.ReplaceAll t u ∅ n) u = some ∅) ∧
    (none : Option Smap) ≠ some ∅ ∧
    (handleGetAll u (some { subject := u }) t).resp = HResp.prefsOut 200 u (some ∅) := by
  have hget : DynamoStore.GetAll t u = none := by
    simp [DynamoStore.GetAll, habs]
  refine ⟨hget, ?_, by simp, ?_⟩
  · intro n
    simp [DynamoStore.GetAll, DynamoStore.ReplaceAll, tset]
  · simp [handleGetAll, authorize, hu, hget]

/-- C8.  `Get(U, k)` finds nothing exactly when U has no Preference Set
(absent record or record with no map, i.e. `GetAll` absent) or `k` is absent
from U's map; the single-key handler, on an authorized request, answers 404
exactly when the store finds nothing and 200 with the key and stored value
when it finds one. -/
theorem C8_get_found_iff (t : Table) (u k : String) (hu : u ≠ "") (hk : k ≠ "") :
    (DynamoStore.Get t u k = none ↔
      DynamoStore.GetAll t u = none ∨
        ∃ m, DynamoStore.GetAll t u = some m ∧ m.lookup k = none) ∧
    (DynamoStore.Get t u k = none →
      (handleGetOne u k (some { subject := u }) t).resp
        = HResp.apiError 404 "preference not found") ∧
    (∀ v, DynamoStore.Get t u k = some v →
      (handleGetOne u k (some { subject := u }) t).resp = HResp.singleOut 200 k v) := by
  refine ⟨?_, ?_, ?_⟩
  · cases hga : DynamoStore.GetAll t u with
    | none => simp [DynamoStore.Get, hga]
    | some m => simp [DynamoStore.Get, hga]
  · intro hget
    simp [handleGetOne, authorize, hu, hk, hget]
  · intro v hget
    simp [handleGetOne, authorize, hu, hk, hget]

/-- C10.  `ReplaceAll` writes a fresh item whose `createdAt` and `updatedAt`
both equal the call's timestamp — so replacing an existing set overwrites the
record's original creation timestamp — whereas a successful `Update` carries
the prior item's `createdAt` over unchanged and rewrites only `updatedAt`
(and the preferences map). -/
theorem C10_timestamps (t : Table) (u : String) (m p : Smap) (now : String) :
    (DynamoStore.ReplaceAll t u m now) (DynamoStore.pk u)
      = some { preferences := some m, createdAt := some now, updatedAt := some now } ∧
    (∀ t2 mg, DynamoStore.Update t u p now = Except.ok (t2, mg) →
      ∃ item item2, t (DynamoStore.pk u) = some item ∧ t2 (DynamoStore.pk u) = some item2 ∧
        item2.createdAt = item.createdAt ∧ item2.updatedAt = some now) := by
  constructor
  · simp [DynamoStore.ReplaceAll, tset]
  · intro t2 mg h
    by_cases hp : p = ∅
    · simp [DynamoStore.Update, hp] at h
    · cases hit : t (DynamoStore.pk u) with
      | none => simp [DynamoStore.Update, hp, hit] at h
      | some item =>
        cases hm : item.preferences with
        | none => simp [DynamoStore.Update, hp, hit, hm] at h
        | some m0 =>
          simp [DynamoStore.Update, hp, hit, hm] at h
          refine ⟨item, { item with preferences := some (p ∪ m0), updatedAt := some now },
            rfl, ?_, rfl, rfl⟩
          rw [← h.1, tset_same]

/-- Witness for C6 at the concrete input: user `alice`, empty table. -/
theorem C6_absent_vs_empty_witness :
    DynamoStore.GetAll emptyTable "alice" = none ∧
    (∀ n, DynamoStore.GetAll (DynamoStore.ReplaceAll emptyTable "alice" ∅ n) "alice" = some ∅) ∧
    (none : Option Smap) ≠ some ∅ ∧
    (handleGetAll "alice" (some { subject := "alice" }) emptyTable).resp
      = HResp.prefsOut 200 "alice" (some ∅) :=
  C6_absent_vs_empty emptyTable "alice" (by decide) rfl

/-- Witness for C8 at the concrete input: table holding `theme ↦ dark` for
`alice`, read of key `theme`. -/
theorem C8_get_found_iff_witness :
    (handleGetOne "alice" "theme" (some { subject := "alice" }) exT).resp
      = HResp.singleOut 200 "theme" "dark" :=
  (C8_get_found_iff exT "alice" "theme" (by decide) (by decide)).2.2 "dark" rfl

/-- Witness for C10 at the concrete input: `alice` holds `exM` with
`createdAt = t0`; an `Update` of `lang ↦ fr` at time `n1` succeeds and keeps
`createdAt = t0`. -/
theorem C10_timestamps_witness :
    ∃ item item2, exT (DynamoStore.pk "alice") = some item ∧
      (tset exT (DynamoStore.pk "alice")
          (some { preferences := some (Finmap.singleton "lang" "fr" ∪ exM),
                  createdAt := some "t0", updatedAt := some "n1" })) (DynamoStore.pk "alice")
        = some item2 ∧
      item2.createdAt = item.createdAt ∧ item2.updatedAt = some "n1" :=
  (C10_timestamps exT "alice" ∅ (Finmap.singleton "lang" "fr") "n1").2
    (tset exT (DynamoStore.pk "alice")
      (some { preferences := some (Finmap.singleton "lang" "fr" ∪ exM),
              createdAt := some "t0", updatedAt := some "n1" }))
    (some (Finmap.singleton "lang" "fr" ∪ exM)) rfl

/-- C7.  On a user holding a Preference Set `m`: `Delete(U, k)` succeeds,
removing exactly `k` — `k` is gone, every other key keeps its value, and
every other user's data is untouched — and when `k` was already absent from
`m` the resulting map is `m` itself (a no-op, not an error).  On a user with
no Preference Set the backend rejects the `REMOVE preferences.#key` document
path, so no set (nor anything else) is ever created. -/
theorem C7_deleteKey_frame (t : Table) (u k : String) :
    (∀ item m, t (DynamoStore.pk u) = some item → item.preferences = some m →
      ∃ t2, DynamoStore.Delete t u k = Except.ok t2 ∧
        DynamoStore.GetAll t2 u = some (m.erase k) ∧
        (m.erase k).lookup k = none ∧
        (∀ k2, k2 ≠ k → (m.erase k).lookup k2 = m.lookup k2) ∧
        (∀ u2, u2 ≠ u → DynamoStore.GetAll t2 u2 = DynamoStore.GetAll t u2) ∧
        (m.lookup k = none → m.erase k = m)) ∧
    (¬ hasPrefSet t u → DynamoStore.Delete t u k = Except.error DBErr.validationException) := by
  constructor
  · intro item m hit hm
    refine ⟨_, Delete_ok k hit hm, ?_, Finmap.lookup_erase k m,
      fun k2 h2 => Finmap.lookup_erase_ne h2, ?_, fun h => erase_of_lookup_none h⟩
    · simp [DynamoStore.GetAll, tset_same]
    · intro u2 h2
      have hne : DynamoStore.pk u2 ≠ DynamoStore.pk u := fun hpk => h2 (pk_inj hpk)
      simp [DynamoStore.GetAll, tset_other _ _ _ _ hne]
  · intro hno
    cases hit : t (DynamoStore.pk u) with
    | none => simp [DynamoStore.Delete, hit]
    | some item =>
      cases hm : item.preferences with
      | none => simp [DynamoStore.Delete, hit, hm]
      | some m => exact absurd ⟨item, m, hit, hm⟩ hno

/-- Witness for C7 at concrete inputs: deleting `theme` from `alice`'s set
`exM` succeeds with the frame intact; deleting from the empty table errors
and creates nothing. -/
theorem C7_deleteKey_frame_witness :
    (∃ t2, DynamoStore.Delete exT "alice" "theme" = Except.ok t2 ∧
      DynamoStore.GetAll t2 "alice" = some (exM.erase "theme") ∧
      (exM.erase "theme").lookup "theme" = none ∧
      (∀ k2, k2 ≠ "theme" → (exM.erase "theme").lookup k2 = exM.lookup k2) ∧
      (∀ u2, u2 ≠ "alice" → DynamoStore.GetAll t2 u2 = DynamoStore.GetAll exT u2) ∧
      (exM.lookup "theme" = none → exM.erase "theme" = exM)) ∧
    DynamoStore.Delete emptyTable "alice" "theme" = Except.error DBErr.validationException :=
  ⟨(C7_deleteKey_frame exT "alice" "theme").1 exItem exM rfl rfl,
   (C7_deleteKey_frame emptyTable "alice" "theme").2
     (fun ⟨_, _, hit, _⟩ => Option.noConfusion hit)⟩

/-- C2.  Each `Update` is one atomic backend request (a single `UpdateItem`,
one transition of the table in this model — not a client-side
read-merge-write), so a concurrent execution of two `Update` calls on a user
holding a Preference Set is one of the two serializations.  In either order,
when the two partial maps have disjoint key sets, both requests succeed and
every key-value pair of both calls is present in the final merged map (and in
a subsequent `GetAll`): neither update is lost. -/
theorem C2_concurrent_disjoint_updates_survive
    (t : Table) (u : String) (item : Item) (m p1 p2 : Smap) (n1 n2 : String)
    (ht : t (DynamoStore.pk u) = some item) (hm : item.preferences = some m)
    (hd : p1.Disjoint p2) (h1 : p1 ≠ ∅) (h2 : p2 ≠ ∅) :
    (∃ t1 t2 m2,
      DynamoStore.Update t u p1 n1 = Except.ok (t1, some (p1 ∪ m)) ∧
      DynamoStore.Update t1 u p2 n2 = Except.ok (t2, some m2) ∧
      DynamoStore.GetAll t2 u = some m2 ∧
      (∀ k v, p1.lookup k = some v → m2.lookup k = some v) ∧
      (∀ k v, p2.lookup k = some v → m2.lookup k = some v)) ∧
    (∃ t1 t2 m2,
      DynamoStore.Update t u p2 n2 = Except.ok (t1, some (p2 ∪ m)) ∧
      DynamoStore.Update t1 u p1 n1 = Except.ok (t2, some m2) ∧
      DynamoStore.GetAll t2 u = some m2 ∧
      (∀ k v, p1.lookup k = some v → m2.lookup k = some v) ∧
      (∀ k v, p2.lookup k = some v → m2.lookup k = some v)) := by
  constructor
  · refine ⟨_, _, p2 ∪ (p1 ∪ m), Update_ok p1 n1 ht hm h1,
      Update_ok p2 n2 (tset_same t (DynamoStore.pk u) _) rfl h2, ?_, ?_, ?_⟩
    · simp [DynamoStore.GetAll, tset_same]
    · intro k v hv
      have hk1 : k ∈ p1 := Finmap.mem_iff.mpr ⟨v, hv⟩
      have hk2 : k ∉ p2 := hd k hk1
      rw [Finmap.lookup_union_right hk2, Finmap.lookup_union_left hk1, hv]
    · intro k v hv
      have hk2 : k ∈ p2 := Finmap.mem_iff.mpr ⟨v, hv⟩
      rw [Finmap.lookup_union_left hk2, hv]
  · refine ⟨_, _, p1 ∪ (p2 ∪ m), Update_ok p2 n2 ht hm h2,
      Update_ok p1 n1 (tset_same t (DynamoStore.pk u) _) rfl h1, ?_, ?_, ?_⟩
    · simp [DynamoStore.GetAll, tset_same]
    · intro k v hv
      have hk1 : k ∈ p1 := Finmap.mem_iff.mpr ⟨v, hv⟩
      rw [Finmap.lookup_union_left hk1, hv]
    · intro k v hv
      have hk2 : k ∈ p2 := Finmap.mem_iff.mpr ⟨v, hv⟩
      have hk1 : k ∉ p1 := fun h => hd k h hk2
      rw [Finmap.lookup_union_right hk1, Finmap.lookup_union_left hk2, hv]

/-- Witness for C2 at concrete inputs: `alice` holds `exM`; the disjoint
merges `a ↦ 1` and `b ↦ 2` both survive in either order. -/
theorem C2_concurrent_disjoint_updates_survive_witness :
    ∃ t1 t2 m2,
      DynamoStore.Update exT "alice" (Finmap.singleton "a" "1" : Smap) "n1"
        = Except.ok (t1, some ((Finmap.singleton "a" "1" : Smap) ∪ exM)) ∧
      DynamoStore.Update t1 "alice" (Finmap.singleton "b" "2" : Smap) "n2"
        = Except.ok (t2, some m2) ∧
      DynamoStore.GetAll t2 "alice" = some m2 ∧
      (∀ k v, (Finmap.singleton "a" "1" : Smap).lookup k = some v → m2.lookup k = some v) ∧
      (∀ k v, (Finmap.singleton "b" "2" : Smap).lookup k = some v → m2.lookup k = some v) :=
  (C2_concurrent_disjoint_updates_survive exT "alice" exItem exM
    (Finmap.singleton "a" "1") (Finmap.singleton "b" "2") "n1" "n2"
    rfl rfl (by decide) (by decide) (by decide)).1

/-- C3.  For every request reaching a preference handler (so with a non-empty
path `userId`): with no verified identity in the request context every
handler answers 401, and with a verified subject different from the path
`userId` every handler answers 403 — in both cases whatever the Store state,
with the store state unchanged, no Store operation invoked, and the two
responses distinct. -/
theorem C3_authz_failures_terminal (u k : String) (t : Table) (body : Body) (now : String)
    (hu : u ≠ "") :
    (handleGetAll u none t = { resp := HResp.apiError 401 "missing claims", table := t, calls := [] } ∧
     handleGetOne u k none t = { resp := HResp.apiError 401 "missing claims", table := t, calls := [] } ∧
     handleReplaceAll u none body now t
       = { resp := HResp.apiError 401 "missing claims", table := t, calls := [] } ∧
     handlePatchPrefs u none body now t
       = { resp := HResp.apiError 401 "missing claims", table := t, calls := [] } ∧
     handleDeleteAll u none t = { resp := HResp.apiError 401 "missing claims", table := t, calls := [] } ∧
     handleDeleteOne u k none t
       = { resp := HResp.apiError 401 "missing claims", table := t, calls := [] }) ∧
    (∀ c : Claims, c.subject ≠ u →
      handleGetAll u (some c) t
        = { resp := HResp.apiError 403 "access denied", table := t, calls := [] } ∧
      handleGetOne u k (some c) t
        = { resp := HResp.apiError 403 "access denied", table := t, calls := [] } ∧
      handleReplaceAll u (some c) body now t
        = { resp := HResp.apiError 403 "access denied", table := t, calls := [] } ∧
      handlePatchPrefs u (some c) body now t
        = { resp := HResp.apiError 403 "access denied", table := t, calls := [] } ∧
      handleDeleteAll u (some c) t
        = { resp := HResp.apiError 403 "access denied", table := t, calls := [] } ∧
      handleDeleteOne u k (some c) t
        = { resp := HResp.apiError 403 "access denied", table := t, calls := [] }) ∧
    HResp.apiError 401 "missing claims" ≠ HResp.apiError 403 "access denied" := by
  refine ⟨?_, ?_, by decide⟩
  · exact ⟨by simp [handleGetAll, authorize, hu], by simp [handleGetOne, authorize, hu],
      by simp [handleReplaceAll, authorize, hu], by simp [handlePatchPrefs, authorize, hu],
      by simp [handleDeleteAll, authorize, hu], by simp [handleDeleteOne, authorize, hu]⟩
  · intro c hc
    exact ⟨by simp [handleGetAll, authorize, hu, hc], by simp [handleGetOne, authorize, hu, hc],
      by simp [handleReplaceAll, authorize, hu, hc], by simp [handlePatchPrefs, authorize, hu, hc],
      by simp [handleDeleteAll, authorize, hu, hc], by simp [handleDeleteOne, authorize, hu, hc]⟩

/-- Witness for C3 at the concrete input: a request authenticated as `alice`
targeting path user `bob` yields 403 from the full-read handler, without
touching the store. -/
theorem C3_authz_failures_terminal_witness :
    handleGetAll "bob" (some { subject := "alice" }) emptyTable
      = { resp := HResp.apiError 403 "access denied", table := emptyTable, calls := [] } :=
  ((C3_authz_failures_terminal "bob" "k" emptyTable Body.malformed "t0" (by decide)).2.1
    { subject := "alice" } (by decide)).1

/-- C9 counterexample.  The claim says every authorized write request whose
body is not a flat string-to-string JSON object gets 400 with no Store call.
The JSON literal `null` is not an object, yet Go's decoder accepts it into a
nil map, so an authorized PUT with body `null` is answered 200 and
`Store.ReplaceAll` is invoked (storing an empty set): the claim as stated
fails at this input. -/
theorem C9_nullBody_replace_counterexample :
    (handleReplaceAll "alice" (some { subject := "alice" }) Body.nullBody "t0" emptyTable).resp
      = HResp.prefsOut 200 "alice" none ∧
    (handleReplaceAll "alice" (some { subject := "alice" }) Body.nullBody "t0" emptyTable).calls
      = [StoreOp.replaceAllOp "alice"] :=
  ⟨rfl, rfl⟩

/-- C9 as amended.  For every authorized write request: a body the decoder
rejects (malformed JSON, a non-object non-null value, non-string values,
nested objects — all `Body.malformed` in this model) is answered 400 by both
write handlers without invoking any Store operation; merge (PATCH) rejects an
empty decoded mapping — empty object or `null` body — with 400 and no Store
call; full replace accepts an empty mapping, and it also accepts a JSON
`null` body, treating it as an empty mapping (the one exception to the
original claim). -/
theorem C9_body_validation_amended (u : String) (t : Table) (now : String) (hu : u ≠ "") :
    handleReplaceAll u (some { subject := u }) Body.malformed now t
      = { resp := HResp.apiError 400 "invalid JSON body", table := t, calls := [] } ∧
    handlePatchPrefs u (some { subject := u }) Body.malformed now t
      = { resp := HResp.apiError 400 "invalid JSON body", table := t, calls := [] } ∧
    handlePatchPrefs u (some { subject := u }) (Body.obj ∅) now t
      = { resp := HResp.apiError 400 "empty preferences", table := t, calls := [] } ∧
    handlePatchPrefs u (some { subject := u }) Body.nullBody now t
      = { resp := HResp.apiError 400 "empty preferences", table := t, calls := [] } ∧
    (handleReplaceAll u (some { subject := u }) (Body.obj ∅) now t).resp
      = HResp.prefsOut 200 u (some ∅) ∧
    (handleReplaceAll u (some { subject := u }) Body.nullBody now t).resp
      = HResp.prefsOut 200 u none := by
  refine ⟨?_, ?_, ?_, ?_, ?_, ?_⟩ <;>
    simp [handleReplaceAll, handlePatchPrefs, authorize, hu, decodeBody]

/-- Witness for C9 (amended) at the concrete input: user `alice`, empty
table. -/
theorem C9_body_validation_amended_witness :
    handleReplaceAll "alice" (some { subject := "alice" }) Body.malformed "t0" emptyTable
      = { resp := HResp.apiError 400 "invalid JSON body", table := emptyTable, calls := [] } :=
  (C9_body_validation_amended "alice" emptyTable "t0" (by decide)).1

theorem jwtParse_ok {lk : String → Option SignedToken} {secret issuer : String} {now : Nat}
    {tokenStr : String} {tk : SignedToken}
    (hlk : lk tokenStr = some tk) (halg : tk.payload.alg = "HS256")
    (hmac : macValid secret tk = true) (hexp : expiredAt now tk.payload.exp = false)
    (hiss : issuer ≠ "" → tk.payload.iss = some issuer) :
    jwtParse lk secret issuer now tokenStr = some tk.payload := by
  have hiss2 : ¬(issuer ≠ "" ∧ tk.payload.iss ≠ some issuer) := by
    rintro ⟨hi1, hi2⟩
    exact hi2 (hiss hi1)
  simp [jwtParse, hlk, halg, hmac, hexp, hiss2]

theorem jwtParse_inv {lk : String → Option SignedToken} {secret issuer : String} {now : Nat}
    {tokenStr : String} {payload : TokenPayload}
    (h : jwtParse lk secret issuer now tokenStr = some payload) :
    ∃ tk, lk tokenStr = some tk ∧ tk.payload = payload ∧ tk.payload.alg = "HS256" ∧
      macValid secret tk = true ∧ expiredAt now tk.payload.exp = false ∧
      (issuer ≠ "" → tk.payload.iss = some issuer) := by
  cases hlk : lk tokenStr with
  | none => simp [jwtParse, hlk] at h
  | some tk =>
    simp only [jwtParse, hlk] at h
    split_ifs at h with h1 h2 h3 h4
    exact ⟨tk, rfl, Option.some.inj h, not_not.mp h1, by simpa using h2, by simpa using h3,
      fun hne => not_not.mp (fun hx => h4 ⟨hne, hx⟩)⟩

theorem tokenAccepted_parse {lk : String → Option SignedToken} {secret issuer : String}
    {now : Nat} {authHeader a b : String}
    (hsp : splitN2 authHeader = [a, b])
    (hacc : tokenAccepted lk secret issuer now authHeader) :
    eqFold a "Bearer" = true ∧
    ∃ tk : SignedToken,
      jwtParse lk secret issuer now b = some tk.payload ∧ tk.payload.sub.getD "" ≠ "" := by
  obtain ⟨hne, scheme, ts, tk, hsp2, hef, hlk, halg, hmac, hexp, hiss, hsub⟩ := hacc
  rw [hsp] at hsp2
  simp only [List.cons.injEq, and_true] at hsp2
  obtain ⟨ha, hb⟩ := hsp2
  subst ha
  subst hb
  exact ⟨hef, tk, jwtParse_ok hlk halg hmac hexp hiss, hsub⟩

/-- C4.  For every request to a path other than `/healthz`, the middleware
invokes the wrapped handler exactly when `tokenAccepted` holds — the
`Authorization` header carries a Bearer token that decodes, declares HS256,
verifies against the configured secret, is unexpired, has a non-empty subject
claim and, when an issuer is configured, a matching issuer claim — and on
every other request (missing header, wrong scheme or structure, failed
integrity check, non-HS256 algorithm, expired, missing subject,
missing/mismatched required issuer) it writes a 401 itself, never invoking
the wrapped handler. -/
theorem C4_jwt_middleware_gate (lk : String → Option SignedToken) (secret issuer : String)
    (now : Nat) (path authHeader : String) (hp : path ≠ "/healthz") :
    ((∃ c, JWTAuth lk secret issuer now path authHeader = MWOut.next c) ↔
      tokenAccepted lk secret issuer now authHeader) ∧
    (¬ tokenAccepted lk secret issuer now authHeader →
      ∃ msg, JWTAuth lk secret issuer now path authHeader = MWOut.reject 401 msg) := by
  by_cases h0 : authHeader = ""
  · have hJ : JWTAuth lk secret issuer now path authHeader
        = MWOut.reject 401 "missing authorization header" := by
      simp [JWTAuth, hp, h0]
    have hacc : ¬ tokenAccepted lk secret issuer now authHeader := fun hacc => hacc.1 h0
    exact ⟨⟨fun ⟨c, hc⟩ => absurd (hJ ▸ hc) (by simp), fun ha => absurd ha hacc⟩,
      fun _ => ⟨_, hJ⟩⟩
  · rcases hsp : splitN2 authHeader with _ | ⟨a, _ | ⟨b, _ | ⟨c, l⟩⟩⟩
    · have hJ : JWTAuth lk secret issuer now path authHeader
          = MWOut.reject 401 "invalid authorization header format" := by
        simp [JWTAuth, hp, h0, hsp]
      have hacc : ¬ tokenAccepted lk secret issuer now authHeader := by
        rintro ⟨-, s1, s2, tk, hsp2, -⟩
        rw [hsp] at hsp2
        exact List.noConfusion hsp2
      exact ⟨⟨fun ⟨c, hc⟩ => absurd (hJ ▸ hc) (by simp), fun ha => absurd ha hacc⟩,
        fun _ => ⟨_, hJ⟩⟩
    · have hJ : JWTAuth lk secret issuer now path authHeader
          = MWOut.reject 401 "invalid authorization header format" := by
        simp [JWTAuth, hp, h0, hsp]
      have hacc : ¬ tokenAccepted lk secret issuer now authHeader := by
        rintro ⟨-, s1, s2, tk, hsp2, -⟩
        rw [hsp] at hsp2
        simp at hsp2
      exact ⟨⟨fun ⟨c, hc⟩ => absurd (hJ ▸ hc) (by simp), fun ha => absurd ha hacc⟩,
        fun _ => ⟨_, hJ⟩⟩
    · cases hef : eqFold a "Bearer" with
      | false =>
        have hJ : JWTAuth lk secret issuer now path authHeader
            = MWOut.reject 401 "invalid authorization header format" := by
          simp [JWTAuth, hp, h0, hsp, hef]
        have hacc : ¬ tokenAccepted lk secret issuer now authHeader := by
          intro hacc
          have hb := (tokenAccepted_parse hsp hacc).1
          rw [hef] at hb
          exact Bool.noConfusion hb
        exact ⟨⟨fun ⟨c, hc⟩ => absurd (hJ ▸ hc) (by simp), fun ha => absurd ha hacc⟩,
          fun _ => ⟨_, hJ⟩⟩
      | true =>
        cases hjp : jwtParse lk secret issuer now b with
        | none =>
          have hJ : JWTAuth lk secret issuer now path authHeader
              = MWOut.reject 401 "invalid or expired token" := by
            simp [JWTAuth, hp, h0, hsp, hef, hjp]
          have hacc : ¬ tokenAccepted lk secret issuer now authHeader := by
            intro hacc
            obtain ⟨tk, hps, -⟩ := (tokenAccepted_parse hsp hacc).2
            rw [hjp] at hps
            exact Option.noConfusion hps
          exact ⟨⟨fun ⟨c, hc⟩ => absurd (hJ ▸ hc) (by simp), fun ha => absurd ha hacc⟩,
            fun _ => ⟨_, hJ⟩⟩
        | some payload =>
          by_cases hs : payload.sub.getD "" = ""
          · have hJ : JWTAuth lk secret issuer now path authHeader
                = MWOut.reject 401 "token missing subject claim" := by
              simp [JWTAuth, hp, h0, hsp, hef, hjp, hs]
            have hacc : ¬ tokenAccepted lk secret issuer now authHeader := by
              intro hacc
              obtain ⟨tk, hps, hsub⟩ := (tokenAccepted_parse hsp hacc).2
              rw [hjp] at hps
              exact hsub (Option.some.inj hps ▸ hs)
            exact ⟨⟨fun ⟨c, hc⟩ => absurd (hJ ▸ hc) (by simp), fun ha => absurd ha hacc⟩,
              fun _ => ⟨_, hJ⟩⟩
          · have hJ : JWTAuth lk secret issuer now path authHeader
                = MWOut.next (some { subject := payload.sub.getD "" }) := by
              simp [JWTAuth, hp, h0, hsp, hef, hjp, hs]
            have hacc : tokenAccepted lk secret issuer now authHeader := by
              obtain ⟨tk, hlk, hpay, halg, hmac, hexp, hiss⟩ := jwtParse_inv hjp
              exact ⟨h0, a, b, tk, hsp, hef, hlk, halg, hmac, hexp, hiss,
                by rw [hpay]; exact hs⟩
            exact ⟨⟨fun _ => hacc, fun _ => ⟨_, hJ⟩⟩, fun hn => absurd hacc hn⟩
    · have hJ : JWTAuth lk secret issuer now path authHeader
          = MWOut.reject 401 "invalid authorization header format" := by
        simp [JWTAuth, hp, h0, hsp]
      have hacc : ¬ tokenAccepted lk secret issuer now authHeader := by
        rintro ⟨-, s1, s2, tk, hsp2, -⟩
        rw [hsp] at hsp2
        simp at hsp2
      exact ⟨⟨fun ⟨c, hc⟩ => absurd (hJ ▸ hc) (by simp), fun ha => absurd ha hacc⟩,
        fun _ => ⟨_, hJ⟩⟩

/-- Example token payload for the C4 witness. -/
def exPayload : TokenPayload := { alg := "HS256", sub := some "alice", iss := none, exp := none }

/-- Example signed token: `exPayload` signed with the secret `sec`. -/
def exToken : SignedToken := { payload := exPayload, macKey := "sec", macMsg := exPayload }

/-- Example decoding environment for the C4 witness: exactly the string
`tok` is a structurally well-formed token, decoding to `exToken`. -/
def exLk : String → Option SignedToken := fun s => if s = "tok" then some exToken else none

/-- Witness for C4 at the concrete input: a valid Bearer token for `alice`
on a non-`/healthz` path reaches the wrapped handler. -/
theorem C4_jwt_middleware_gate_witness :
    ∃ c, JWTAuth exLk "sec" "" 5 "/api/v1/users/alice/preferences" "Bearer tok" = MWOut.next c :=
  (C4_jwt_middleware_gate exLk "sec" "" 5 "/api/v1/users/alice/preferences" "Bearer tok"
    (by decide)).1.mpr
    ⟨by decide, "Bearer", "tok", exToken, by decide, by decide, by decide, by decide, by decide,
      by decide, by decide, by decide⟩

end UserPrefs
